import Mathlib

/-!
Verification of the asynchronous Redux middleware
(`source/redux/middleware/asynchronous.js`).

The middleware and its error normalizer `parse_error` are shallowly
embedded: JavaScript values become the inductive `JSVal`, the
middleware's per-dispatch behaviour becomes a pure function producing a
trace of observable events (store dispatches, promise invocation,
cancellation calls, error-report calls) together with the updated
cancellation table and the settlement of the returned promise.
-/

mutual

/-- A dynamic JavaScript value: `undefined`, `null`, booleans, numbers,
strings and plain objects (ordered field lists). -/
inductive JSVal where
  | undefined
  | null
  | bool (b : Bool)
  | num (n : Int)
  | str (s : String)
  | obj (fields : JSFields)
deriving DecidableEq, Repr

/-- The ordered field list of a JavaScript object. -/
inductive JSFields where
  | nil
  | cons (k : String) (v : JSVal) (rest : JSFields)
deriving DecidableEq, Repr

end

namespace JSFields

/-- Look up the value of key `k` in a field list. -/
def lookup (fields : JSFields) (k : String) : Option JSVal :=
  match fields with
  | .nil => none
  | .cons k' v rest => if k' = k then some v else rest.lookup k

/-- Replace the value of key `k` in an ordered field list, or append it. -/
def set (fields : JSFields) (k : String) (w : JSVal) : JSFields :=
  match fields with
  | .nil => .cons k w .nil
  | .cons k' v rest =>
    if k' = k then .cons k w rest else .cons k' v (rest.set k w)

end JSFields

namespace JSVal

/-- JavaScript truthiness of a value. -/
def truthy : JSVal → Bool
  | .undefined => false
  | .null => false
  | .bool b => b
  | .num n => n != 0
  | .str s => s ≠ ""
  | .obj _ => true

/-- Property read `v[k]`: `undefined` on non-objects and missing keys. -/
def getField (v : JSVal) (k : String) : JSVal :=
  match v with
  | .obj fields =>
    match fields.lookup k with
    | some w => w
    | none => .undefined
  | _ => .undefined

/-- Property write `v[k] = w` on an object; no-op on non-objects. -/
def setField (v : JSVal) (k : String) (w : JSVal) : JSVal :=
  match v with
  | .obj fields => .obj (fields.set k w)
  | _ => v

/-- Whether an object value carries key `k` (JS `in`-style presence). -/
def hasField (v : JSVal) (k : String) : Bool :=
  match v with
  | .obj fields => fields.lookup k |>.isSome
  | _ => false

end JSVal

/-- Modelled from the spec: the repository helper `is_object` (imported
from `helpers`, not under `src/`), which recognizes plain objects. -/
def is_object (v : JSVal) : Bool :=
  match v with
  | .obj _ => true
  | _ => false

/-- Modelled from the spec: the repository helper `exists` (imported from
`helpers`, not under `src/`), which tests that a value is defined. -/
def exists_js (v : JSVal) : Bool :=
  v != .undefined

/-- The statement form `if (!exists(o[k])) o[k] = w` used twice by
`parse_error`. -/
def set_if_absent (o : JSVal) (k : String) (w : JSVal) : JSVal :=
  if exists_js (o.getField k) then o else o.setField k w

/-- Function `parse_error` from `asynchronous.js`.  JavaScript mutates the raw
error's `data` object through an alias; the embedding makes the mutation
explicit by returning both the raw error after the call (first
component) and the value the function returns (second component). -/
def parse_error (error : JSVal) : JSVal × JSVal :=
  let error_data := if is_object (error.getField "data")
    then error.getField "data" else .obj .nil
  let error_data := set_if_absent error_data "status" (error.getField "status")
  let error_data := set_if_absent error_data "message" (error.getField "message")
  if is_object (error.getField "data") then
    (error.setField "data" error_data, error_data)
  else
    (error, error_data)

/-- The value `parse_error` returns (the normalized error object). -/
def parse_error_result (error : JSVal) : JSVal :=
  (parse_error error).2

/-- Constant `RESULT_ACTION_PROPERTY` from `asynchronous.js`: key of the success
notification's payload (the `value` field of `Notification` below). -/
def RESULT_ACTION_PROPERTY : String := "value"

/-- Constant `ERROR_ACTION_PROPERTY` from `asynchronous.js`: key of the failure
notification's payload (the `error` field of `Notification` below). -/
def ERROR_ACTION_PROPERTY : String := "error"

/-- The settlement of a JavaScript promise. -/
inductive Outcome where
  | resolved (value : JSVal)
  | rejected (error : JSVal)
deriving DecidableEq, Repr

/-- The value returned by an intent's `promise` function, described by
its observable interface: `id` identifies this promise in the trace,
`thenable` models `typeof promised.then === 'function'`, `cancellable`
models `typeof promised.cancel === 'function'`, and `outcome` is how the
promise eventually settles. -/
structure Promised where
  id : Nat
  thenable : Bool
  cancellable : Bool
  outcome : Outcome
deriving DecidableEq, Repr

/-- A dispatched action (intent).  `promise = some p` models a callable
`promise` field whose invocation returns `p`; `none` models an absent or
non-callable `promise` field.  `event` and `events` are the raw field
values (`none` = falsy/absent).  `rest` holds every remaining field,
exactly the `...rest` of the destructuring in `asynchronous.js`. -/
structure ReduxAction where
  promise : Option Promised
  event : Option JSVal
  events : Option (List JSVal)
  cancelPrevious : Bool
  rest : List (String × JSVal)
deriving DecidableEq, Repr

/-- Read a field of the original action that was not destructured away
(used for `action.preloading`). -/
def restField (rest : List (String × JSVal)) (k : String) : JSVal :=
  match rest.lookup k with
  | some v => v
  | none => .undefined

/-- A notification delivered to the store by the middleware:
`{ ...rest, type }`, plus the resolved result under
`RESULT_ACTION_PROPERTY` for success and the normalized error under
`ERROR_ACTION_PROPERTY` for failure. -/
structure Notification where
  rest : List (String × JSVal)
  type : JSVal
  value : Option JSVal := none
  error : Option JSVal := none
deriving DecidableEq, Repr

/-- Observable events of one pass through the middleware, in order:
store dispatches, the invocation of the intent's `promise` function,
`cancel()` calls on a previously stored promise, and invocations of the
configured `on_error` callback (with the raw error). -/
inductive Ev where
  | dispatched (n : Notification)
  | promiseInvoked (id : Nat)
  | cancelCalled (id : Nat)
  | onErrorCalled (error : JSVal)
deriving DecidableEq, Repr

/-- The `cancellable_promises` table: pending-event-name to the id of
the in-flight cancellable promise. -/
abbrev CancelTable := List (JSVal × Nat)

/-- Table read `cancellable_promises[k]`. -/
def tblGet (tbl : CancelTable) (k : JSVal) : Option Nat :=
  match tbl with
  | [] => none
  | (k', v) :: rest => if k' = k then some v else tblGet rest k

/-- Table write `cancellable_promises[k] = pid`. -/
def tblSet (tbl : CancelTable) (k : JSVal) (pid : Nat) : CancelTable :=
  match tbl with
  | [] => [(k, pid)]
  | (k', v) :: rest =>
    if k' = k then (k, pid) :: rest else (k', v) :: tblSet rest k pid

/-- Table removal `delete cancellable_promises[k]`. -/
def tblDel (tbl : CancelTable) (k : JSVal) : CancelTable :=
  tbl.filter fun kv => kv.1 ≠ k

/-- The middleware's construction parameters
(`asynchronous_middleware(http_client, redux_event_naming, server,
on_error, parseError, get_history)`).  The opaque `http_client` and
`get_history` collaborators are never inspected by the middleware and
are not represented; `on_error` is represented by whether a callback was
configured, its invocations being recorded in the trace. -/
structure Config where
  redux_event_naming : String → List JSVal
  server : Bool
  on_error : Bool
  parseError : JSVal → JSVal

/-- Everything the middleware remembers about an operation it started:
the promise id, the three event names, the forwarded payload, the
computed cancellability, the eventual outcome, and the truthiness of
`action.preloading`. -/
structure InFlight where
  pid : Nat
  request : JSVal
  success : JSVal
  failure : JSVal
  rest : List (String × JSVal)
  cancellable : Bool
  outcome : Outcome
  preloading : Bool
deriving DecidableEq, Repr

/-- How the synchronous part of one middleware pass ends. -/
inductive SyncOut where
  | nextResult (v : JSVal)
  | thrown (msg : String)
  | started (op : InFlight)
deriving DecidableEq, Repr

/-- Error message thrown on an invalid `events` property. -/
def events_error_message : String :=
  "events property must be an array of 3 event names"

/-- Error message thrown when `promise()` does not return a Promise. -/
def promise_error_message : String :=
  "promise function must return a Promise"

/-- The `events` value the middleware ends up validating
(`asynchronous.js`, lines 34-37): the intent's `events` field when
truthy, else the naming function applied to a string `event` field, else
nothing. -/
def resolved_events (cfg : Config) (action : ReduxAction) :
    Option (List JSVal) :=
  match action.events with
  | some es => some es
  | none =>
    match action.event with
    | some (.str s) => some (cfg.redux_event_naming s)
    | _ => none

/-- The synchronous part of one middleware pass over `action`
(`asynchronous.js`, lines 23-79): pass through non-promise actions to
`next`; resolve and validate the event triple; dispatch the pending
notification; invoke `promise()`; validate the returned value is
thenable; compute cancellability and cancel/overwrite the previous
table entry.  Returns the emitted events in order, the updated table,
and how the pass ended. -/
def asynchronous_middleware_sync (cfg : Config) (next : ReduxAction → JSVal)
    (cancellable_promises : CancelTable) (action : ReduxAction) :
    List Ev × CancelTable × SyncOut :=
  match action.promise with
  | none => ([], cancellable_promises, .nextResult (next action))
  | some promised =>
    match resolved_events cfg action with
    | none => ([], cancellable_promises, .thrown events_error_message)
    | some es =>
      match es with
      | [rq, sc, fl] =>
        let pending : Notification := { rest := action.rest, type := rq }
        let evs := [Ev.dispatched pending, Ev.promiseInvoked promised.id]
        if !promised.thenable then
          (evs, cancellable_promises, .thrown promise_error_message)
        else
          let cancellable :=
            !cfg.server && action.cancelPrevious && promised.cancellable
          let op : InFlight :=
            { pid := promised.id, request := rq, success := sc,
              failure := fl, rest := action.rest, cancellable := cancellable,
              outcome := promised.outcome,
              preloading := (restField action.rest "preloading").truthy }
          if cancellable then
            match tblGet cancellable_promises rq with
            | some prev =>
              (evs ++ [Ev.cancelCalled prev],
               tblSet cancellable_promises rq promised.id, .started op)
            | none =>
              (evs, tblSet cancellable_promises rq promised.id, .started op)
          else
            (evs, cancellable_promises, .started op)
      | _ => ([], cancellable_promises, .thrown events_error_message)

/-- The settlement handlers of one middleware pass (`asynchronous.js`,
lines 84-179): on resolution, delete the table entry (if cancellable),
dispatch the success notification and resolve the outer promise with the
result; on rejection, delete the table entry (if cancellable), dispatch
the failure notification carrying `parseError(error)`, invoke the
`on_error` callback when on the client with a callback configured and
`action.preloading` falsy, and reject the outer promise with the
original error. -/
def asynchronous_middleware_settle (cfg : Config) (tbl : CancelTable)
    (op : InFlight) : List Ev × CancelTable × Outcome :=
  match op.outcome with
  | .resolved result =>
    let tbl' := if op.cancellable then tblDel tbl op.request else tbl
    ([Ev.dispatched
        { rest := op.rest, type := op.success, value := some result }],
     tbl', .resolved result)
  | .rejected error =>
    let tbl' := if op.cancellable then tblDel tbl op.request else tbl
    let evs :=
      [Ev.dispatched
        { rest := op.rest, type := op.failure,
          error := some (cfg.parseError error) }]
    let evs :=
      if !cfg.server && cfg.on_error && !op.preloading
      then evs ++ [Ev.onErrorCalled error]
      else evs
    (evs, tbl', .rejected error)

/-- How one full middleware pass ends: the verbatim result of
`next(action)`, a synchronously thrown construction error, or the
settlement of the returned promise. -/
inductive RunResult where
  | nextResult (v : JSVal)
  | thrown (msg : String)
  | settled (outcome : Outcome)
deriving DecidableEq, Repr

/-- One full middleware pass: the synchronous part followed (when an
operation was started) by its settlement.  This is the linearization in
which the operation settles before any further dispatch. -/
def asynchronous_middleware_run (cfg : Config) (next : ReduxAction → JSVal)
    (tbl : CancelTable) (action : ReduxAction) :
    List Ev × CancelTable × RunResult :=
  match asynchronous_middleware_sync cfg next tbl action with
  | (evs, tbl1, .nextResult v) => (evs, tbl1, .nextResult v)
  | (evs, tbl1, .thrown m) => (evs, tbl1, .thrown m)
  | (evs, tbl1, .started op) =>
    let step := asynchronous_middleware_settle cfg tbl1 op
    (evs ++ step.1, step.2.1, .settled step.2.2)

/-- The notifications dispatched to the store within a trace, in order. -/
def notificationsOf (evs : List Ev) : List Notification :=
  evs.filterMap fun e =>
    match e with
    | .dispatched n => some n
    | _ => none

/-- Whether event `e` occurs in a trace. -/
def memEv (evs : List Ev) (e : Ev) : Bool :=
  match evs with
  | [] => false
  | x :: rest => if x = e then true else memEv rest e

/-- How many times event `e` occurs in a trace. -/
def countEv (evs : List Ev) (e : Ev) : Nat :=
  match evs with
  | [] => 0
  | x :: rest => (if x = e then 1 else 0) + countEv rest e

/-- Predicate `comesBefore evs a b`: some occurrence of `a` in `evs` is followed,
strictly later, by an occurrence of `b`. -/
def comesBefore (evs : List Ev) (a b : Ev) : Bool :=
  match evs with
  | [] => false
  | e :: rest => (if e = a then memEv rest b else false) || comesBefore rest a b


/-! ### Helper lemmas about object field access -/

/-- The raw error of the spec's 404 example: its `data` payload is
`{status: 404}` and its own `message` is `"Not Found"`. -/
def err404 : JSVal :=
  .obj (.cons "data" (.obj (.cons "status" (.num 404) .nil))
    (.cons "message" (.str "Not Found") .nil))

/-- A concrete middleware configuration for witnesses: client side, an
error-report callback configured, a conventional naming function, the
built-in normalizer. -/
def cfg0 : Config :=
  { redux_event_naming := fun s =>
      [.str (s ++ ": pending"), .str (s ++ ": done"), .str (s ++ ": failed")],
    server := false,
    on_error := true,
    parseError := parse_error_result }

/-- A concrete `next` continuation for witnesses. -/
def next0 : ReduxAction → JSVal := fun _ => .str "next result"

/-- A concrete opaque payload for witnesses. -/
def sampleRest : List (String × JSVal) := [("userId", .num 3)]

/-- An intent without a callable `promise` field. -/
def actionPlain : ReduxAction :=
  { promise := none, event := none, events := some [.str "A", .str "B", .str "C"],
    cancelPrevious := false, rest := sampleRest }

/-- An intercepted intent with `events = [P, S, F]` whose promise
resolves to `42`. -/
def actionResolved : ReduxAction :=
  { promise := some { id := 1, thenable := true, cancellable := false,
                      outcome := .resolved (.num 42) },
    event := none,
    events := some [.str "P", .str "S", .str "F"],
    cancelPrevious := false, rest := sampleRest }

/-- An intercepted intent with `events = [P, S, F]` whose promise
rejects with the string error `"boom"`. -/
def actionRejected : ReduxAction :=
  { promise := some { id := 1, thenable := true, cancellable := false,
                      outcome := .rejected (.str "boom") },
    event := none,
    events := some [.str "P", .str "S", .str "F"],
    cancelPrevious := false, rest := sampleRest }

/-- An intercepted intent whose callable `promise` returns a value that
is not a thenable. -/
def actionNonThenable : ReduxAction :=
  { promise := some { id := 1, thenable := false, cancellable := false,
                      outcome := .resolved .undefined },
    event := none,
    events := some [.str "P", .str "S", .str "F"],
    cancelPrevious := false, rest := sampleRest }

/-- First of two back-to-back cancellable intents sharing the
pending-event-name `"R"`. -/
def actionCancelA : ReduxAction :=
  { promise := some { id := 1, thenable := true, cancellable := true,
                      outcome := .resolved (.num 1) },
    event := none,
    events := some [.str "R", .str "S", .str "F"],
    cancelPrevious := true, rest := [] }

/-- Second of two back-to-back cancellable intents sharing the
pending-event-name `"R"`. -/
def actionCancelB : ReduxAction :=
  { promise := some { id := 2, thenable := true, cancellable := true,
                      outcome := .resolved (.num 2) },
    event := none,
    events := some [.str "R", .str "S", .str "F"],
    cancelPrevious := true, rest := [] }

/-- An intercepted intent whose `events` triple consists of three
numbers instead of three strings. -/
def actionNumericEvents : ReduxAction :=
  { promise := some { id := 1, thenable := true, cancellable := false,
                      outcome := .resolved (.num 7) },
    event := none,
    events := some [.num 1, .num 2, .num 3],
    cancelPrevious := false, rest := [] }

/-- An intercepted intent with neither `events` nor `event`. -/
def actionNoEvents : ReduxAction :=
  { promise := some { id := 1, thenable := true, cancellable := false,
                      outcome := .resolved .undefined },
    event := none, events := none, cancelPrevious := false, rest := [] }

/-- A concrete in-flight cancellable operation for the C8 witness. -/
def inflightR : InFlight :=
  { pid := 1, request := .str "R", success := .str "S", failure := .str "F",
    rest := [], cancellable := true, outcome := .resolved (.num 1),
    preloading := false }

theorem JSFields.lookup_set_self (fs : JSFields) (k : String) (w : JSVal) :
    (fs.set k w).lookup k = some w := by
  match fs with
  | .nil => simp [JSFields.set, JSFields.lookup]
  | .cons k' v rest =>
    have ih := JSFields.lookup_set_self rest k w
    by_cases h : k' = k <;> simp [JSFields.set, JSFields.lookup, h, ih]

theorem JSFields.lookup_set_ne (fs : JSFields) (k k' : String) (w : JSVal)
    (h : k ≠ k') : (fs.set k w).lookup k' = fs.lookup k' := by
  match fs with
  | .nil => simp [JSFields.set, JSFields.lookup, h]
  | .cons k'' v rest =>
    have ih := JSFields.lookup_set_ne rest k k' w h
    by_cases h2 : k'' = k <;> simp [JSFields.set, JSFields.lookup, h2, h, ih]

theorem JSVal.getField_setField_self (v : JSVal) (k : String) (w : JSVal)
    (h : is_object v = true) : (v.setField k w).getField k = w := by
  cases v <;> simp_all [is_object, JSVal.setField, JSVal.getField,
    JSFields.lookup_set_self]

theorem JSVal.getField_setField_ne (v : JSVal) (k k' : String) (w : JSVal)
    (h : k ≠ k') : (v.setField k w).getField k' = v.getField k' := by
  cases v <;> simp [JSVal.setField, JSVal.getField,
    JSFields.lookup_set_ne _ _ _ _ h]

theorem JSVal.hasField_setField_self (v : JSVal) (k : String) (w : JSVal)
    (h : is_object v = true) : (v.setField k w).hasField k = true := by
  cases v <;> simp_all [is_object, JSVal.setField, JSVal.hasField,
    JSFields.lookup_set_self]

theorem JSVal.hasField_setField_ne (v : JSVal) (k k' : String) (w : JSVal)
    (h : k ≠ k') : (v.setField k w).hasField k' = v.hasField k' := by
  cases v <;> simp [JSVal.setField, JSVal.hasField,
    JSFields.lookup_set_ne _ _ _ _ h]

theorem JSVal.is_object_setField (v : JSVal) (k : String) (w : JSVal) :
    is_object (v.setField k w) = is_object v := by
  cases v <;> simp [is_object, JSVal.setField]

theorem JSVal.hasField_of_exists (v : JSVal) (k : String)
    (h : exists_js (v.getField k) = true) : v.hasField k = true := by
  cases v <;> simp_all [exists_js, JSVal.getField, JSVal.hasField]
  case obj fields =>
    cases hl : fields.lookup k <;> simp_all

theorem getField_set_if_absent_self (o : JSVal) (k : String) (w : JSVal)
    (hobj : is_object o = true) :
    (set_if_absent o k w).getField k =
      if exists_js (o.getField k) = true then o.getField k else w := by
  by_cases h : exists_js (o.getField k) = true <;>
    simp [set_if_absent, h, JSVal.getField_setField_self _ _ _ hobj]

theorem getField_set_if_absent_ne (o : JSVal) (k k' : String) (w : JSVal)
    (h : k ≠ k') :
    (set_if_absent o k w).getField k' = o.getField k' := by
  by_cases he : exists_js (o.getField k) = true <;>
    simp [set_if_absent, he, JSVal.getField_setField_ne _ _ _ _ h]

theorem hasField_set_if_absent_self (o : JSVal) (k : String) (w : JSVal)
    (hobj : is_object o = true) :
    (set_if_absent o k w).hasField k = true := by
  by_cases h : exists_js (o.getField k) = true
  · simp [set_if_absent, h, JSVal.hasField_of_exists _ _ h]
  · simp [set_if_absent, h, JSVal.hasField_setField_self _ _ _ hobj]

theorem hasField_set_if_absent_ne (o : JSVal) (k k' : String) (w : JSVal)
    (h : k ≠ k') :
    (set_if_absent o k w).hasField k' = o.hasField k' := by
  by_cases he : exists_js (o.getField k) = true <;>
    simp [set_if_absent, he, JSVal.hasField_setField_ne _ _ _ _ h]

theorem is_object_set_if_absent (o : JSVal) (k : String) (w : JSVal) :
    is_object (set_if_absent o k w) = is_object o := by
  by_cases he : exists_js (o.getField k) = true <;>
    simp [set_if_absent, he, JSVal.is_object_setField]

/-- C9: the built-in error normalizer returns a plain object that always
carries `status` and `message` keys; when the raw error's `data` payload
is an object those fields come from the payload, defaulted from the raw
error's own `status`/`message` when absent from it; when the payload is
not an object both are taken from the raw error itself; and on the
404 example the result is `{status: 404, message: "Not Found"}`. -/
theorem parse_error_normalizes (error : JSVal) :
    is_object (parse_error_result error) = true ∧
    (parse_error_result error).hasField "status" = true ∧
    (parse_error_result error).hasField "message" = true ∧
    (is_object (error.getField "data") = true →
      ((exists_js ((error.getField "data").getField "status") = true →
          (parse_error_result error).getField "status" =
            (error.getField "data").getField "status") ∧
       (exists_js ((error.getField "data").getField "status") = false →
          (parse_error_result error).getField "status" =
            error.getField "status") ∧
       (exists_js ((error.getField "data").getField "message") = true →
          (parse_error_result error).getField "message" =
            (error.getField "data").getField "message") ∧
       (exists_js ((error.getField "data").getField "message") = false →
          (parse_error_result error).getField "message" =
            error.getField "message"))) ∧
    (is_object (error.getField "data") = false →
      (parse_error_result error).getField "status" =
        error.getField "status" ∧
      (parse_error_result error).getField "message" =
        error.getField "message") ∧
    parse_error_result err404 =
      .obj (.cons "status" (.num 404)
        (.cons "message" (.str "Not Found") .nil)) := by
  have hne : "status" ≠ "message" := by decide
  have hne2 : "message" ≠ "status" := by decide
  have h404 : parse_error_result err404 =
      .obj (.cons "status" (.num 404)
        (.cons "message" (.str "Not Found") .nil)) := by decide
  by_cases hd : is_object (error.getField "data") = true
  · have hres : parse_error_result error =
        set_if_absent
          (set_if_absent (error.getField "data") "status"
            (error.getField "status"))
          "message" (error.getField "message") := by
      simp [parse_error_result, parse_error, hd]
    have hobj1 : is_object (set_if_absent (error.getField "data") "status"
        (error.getField "status")) = true := by
      rw [is_object_set_if_absent]; exact hd
    have hobj2 : is_object (parse_error_result error) = true := by
      rw [hres, is_object_set_if_absent, is_object_set_if_absent]; exact hd
    have hstat : (parse_error_result error).getField "status" =
        if exists_js ((error.getField "data").getField "status") = true
        then (error.getField "data").getField "status"
        else error.getField "status" := by
      rw [hres, getField_set_if_absent_ne _ _ _ _ hne2,
        getField_set_if_absent_self _ _ _ hd]
    have hmess : (parse_error_result error).getField "message" =
        if exists_js ((error.getField "data").getField "message") = true
        then (error.getField "data").getField "message"
        else error.getField "message" := by
      rw [hres, getField_set_if_absent_self _ _ _ hobj1]
      simp only [getField_set_if_absent_ne _ _ _ _ hne]
    have hhs : (parse_error_result error).hasField "status" = true := by
      rw [hres, hasField_set_if_absent_ne _ _ _ _ hne2,
        hasField_set_if_absent_self _ _ _ hd]
    have hhm : (parse_error_result error).hasField "message" = true := by
      rw [hres, hasField_set_if_absent_self _ _ _ hobj1]
    refine ⟨hobj2, hhs, hhm, fun _ => ⟨?_, ?_, ?_, ?_⟩,
      fun hcon => absurd hd (by simp [hcon]), h404⟩
    · intro h; rw [hstat, if_pos h]
    · intro h; rw [hstat, if_neg (by simp [h])]
    · intro h; rw [hmess, if_pos h]
    · intro h; rw [hmess, if_neg (by simp [h])]
  · have hdf : is_object (error.getField "data") = false := by
      simpa using hd
    have hres : parse_error_result error =
        .obj (.cons "status" (error.getField "status")
          (.cons "message" (error.getField "message") .nil)) := by
      simp only [parse_error_result, parse_error, hdf]
      rfl
    refine ⟨by rw [hres]; rfl, by rw [hres]; rfl, by rw [hres]; rfl,
      fun hcon => absurd hcon (by simp [hdf]),
      fun _ => ⟨by rw [hres]; rfl, by rw [hres]; rfl⟩, h404⟩

/-- Witness for C9 at the 404 example: the normalized `status` is taken
from the error's `data` payload. -/
theorem parse_error_normalizes_witness :
    (parse_error_result err404).getField "status" =
      (err404.getField "data").getField "status" :=
  ((parse_error_normalizes err404).2.2.2.1 (by decide)).1 (by decide)

/-- C10: when the raw error's `data` field is an object, the normalizer
returns the error's own `data` payload (aliased, not copied), and the
call mutates that payload in place, adding `status`/`message` taken from
the error itself when absent from the payload.  The embedding realizes
the aliasing mutation as the simultaneous update of the raw error
returned in `(parse_error error).1`. -/
theorem parse_error_aliases_error_data (error : JSVal)
    (h : is_object (error.getField "data") = true) :
    (parse_error error).2 = ((parse_error error).1).getField "data" ∧
    (exists_js ((error.getField "data").getField "status") = false →
      (((parse_error error).1).getField "data").getField "status" =
        error.getField "status") ∧
    (exists_js ((error.getField "data").getField "message") = false →
      (((parse_error error).1).getField "data").getField "message" =
        error.getField "message") := by
  have hne : "status" ≠ "message" := by decide
  have hne2 : "message" ≠ "status" := by decide
  have herr : is_object error = true := by
    cases error <;> simp_all [JSVal.getField, is_object]
  have hobj1 : is_object (set_if_absent (error.getField "data") "status"
      (error.getField "status")) = true := by
    rw [is_object_set_if_absent]; exact h
  have hpair : parse_error error =
      (error.setField "data"
        (set_if_absent (set_if_absent (error.getField "data") "status"
          (error.getField "status")) "message" (error.getField "message")),
       set_if_absent (set_if_absent (error.getField "data") "status"
          (error.getField "status")) "message" (error.getField "message")) := by
    simp [parse_error, h]
  rw [hpair]
  refine ⟨by rw [JSVal.getField_setField_self _ _ _ herr], ?_, ?_⟩
  · intro hs
    rw [JSVal.getField_setField_self _ _ _ herr,
      getField_set_if_absent_ne _ _ _ _ hne2,
      getField_set_if_absent_self _ _ _ h, if_neg (by simp [hs])]
  · intro hm
    rw [JSVal.getField_setField_self _ _ _ herr,
      getField_set_if_absent_self _ _ _ hobj1]
    simp only [getField_set_if_absent_ne _ _ _ _ hne]
    rw [if_neg (by simp [hm])]

/-- Witness for C10 at the 404 example: the normalizer's return value is
the error's own (updated) `data` payload. -/
theorem parse_error_aliases_witness :
    (parse_error err404).2 = ((parse_error err404).1).getField "data" :=
  (parse_error_aliases_error_data err404 (by decide)).1

/-- C7: an intent without a callable `promise` field passes through
unintercepted: `next` receives the intent unchanged and its result is
returned verbatim, no notification is dispatched, and the cancellation
table is left unmodified. -/
theorem middleware_passthrough (cfg : Config) (next : ReduxAction → JSVal)
    (tbl : CancelTable) (a : ReduxAction) (h : a.promise = none) :
    asynchronous_middleware_run cfg next tbl a =
      ([], tbl, .nextResult (next a)) := by
  simp [asynchronous_middleware_run, asynchronous_middleware_sync, h]

/-- Witness for C7 on a concrete promise-less intent. -/
theorem middleware_passthrough_witness :
    asynchronous_middleware_run cfg0 next0 [] actionPlain =
      ([], [], .nextResult (next0 actionPlain)) :=
  middleware_passthrough cfg0 next0 [] actionPlain rfl

/-- C1: an intercepted intent with `events = [P, S, F]` whose promise
resolves to `v` dispatches exactly two notifications, in order
`{...rest, type: P}` then `{...rest, type: S, value: v}`, and the
promise returned by the interceptor resolves to `v`. -/
theorem middleware_resolved_dispatches (cfg : Config)
    (next : ReduxAction → JSVal) (tbl : CancelTable) (a : ReduxAction)
    (p : Promised) (P S F v : JSVal)
    (hp : a.promise = some p) (hth : p.thenable = true)
    (hout : p.outcome = .resolved v) (hev : a.events = some [P, S, F]) :
    notificationsOf (asynchronous_middleware_run cfg next tbl a).1 =
      [{ rest := a.rest, type := P },
       { rest := a.rest, type := S, value := some v }] ∧
    (asynchronous_middleware_run cfg next tbl a).2.2 =
      .settled (.resolved v) := by
  cases hc : (!cfg.server && a.cancelPrevious && p.cancellable) with
  | false =>
    simp [asynchronous_middleware_run, asynchronous_middleware_sync,
      asynchronous_middleware_settle, resolved_events, notificationsOf,
      hp, hth, hout, hev, hc]
  | true =>
    cases hg : tblGet tbl P with
    | none =>
      simp [asynchronous_middleware_run, asynchronous_middleware_sync,
        asynchronous_middleware_settle, resolved_events, notificationsOf,
        hp, hth, hout, hev, hc, hg]
    | some prev =>
      simp [asynchronous_middleware_run, asynchronous_middleware_sync,
        asynchronous_middleware_settle, resolved_events, notificationsOf,
        hp, hth, hout, hev, hc, hg]

/-- Witness for C1 on a concrete resolving intent. -/
theorem middleware_resolved_witness :
    notificationsOf
        (asynchronous_middleware_run cfg0 next0 [] actionResolved).1 =
      [{ rest := sampleRest, type := .str "P" },
       { rest := sampleRest, type := .str "S", value := some (.num 42) }] ∧
    (asynchronous_middleware_run cfg0 next0 [] actionResolved).2.2 =
      .settled (.resolved (.num 42)) :=
  middleware_resolved_dispatches cfg0 next0 [] actionResolved _ _ _ _ _
    rfl rfl rfl rfl

/-- C2: an intercepted intent with `events = [P, S, F]` whose promise
rejects with `e` dispatches exactly two notifications, in order
`{...rest, type: P}` then `{...rest, type: F, error: parseError(e)}`
with the injected normalizer applied, and the promise returned by the
interceptor rejects with the original error `e`, not with
`parseError(e)`. -/
theorem middleware_rejected_dispatches (cfg : Config)
    (next : ReduxAction → JSVal) (tbl : CancelTable) (a : ReduxAction)
    (p : Promised) (P S F e : JSVal)
    (hp : a.promise = some p) (hth : p.thenable = true)
    (hout : p.outcome = .rejected e) (hev : a.events = some [P, S, F]) :
    notificationsOf (asynchronous_middleware_run cfg next tbl a).1 =
      [{ rest := a.rest, type := P },
       { rest := a.rest, type := F, error := some (cfg.parseError e) }] ∧
    (asynchronous_middleware_run cfg next tbl a).2.2 =
      .settled (.rejected e) := by
  cases hc : (!cfg.server && a.cancelPrevious && p.cancellable) with
  | false =>
    cases he : (!cfg.server && cfg.on_error &&
        !(restField a.rest "preloading").truthy) <;>
      simp [asynchronous_middleware_run, asynchronous_middleware_sync,
        asynchronous_middleware_settle, resolved_events, notificationsOf,
        hp, hth, hout, hev, hc, he]
  | true =>
    cases hg : tblGet tbl P <;>
      cases he : (!cfg.server && cfg.on_error &&
        !(restField a.rest "preloading").truthy) <;>
      simp [asynchronous_middleware_run, asynchronous_middleware_sync,
        asynchronous_middleware_settle, resolved_events, notificationsOf,
        hp, hth, hout, hev, hc, hg, he]

/-- Witness for C2 on a concrete rejecting intent. -/
theorem middleware_rejected_witness :
    notificationsOf
        (asynchronous_middleware_run cfg0 next0 [] actionRejected).1 =
      [{ rest := sampleRest, type := .str "P" },
       { rest := sampleRest, type := .str "F",
         error := some (cfg0.parseError (.str "boom")) }] ∧
    (asynchronous_middleware_run cfg0 next0 [] actionRejected).2.2 =
      .settled (.rejected (.str "boom")) :=
  middleware_rejected_dispatches cfg0 next0 [] actionRejected _ _ _ _ _
    rfl rfl rfl rfl

/-- Counterexample to C3 as stated: an intercepted intent (callable
`promise`) whose promise call returns a non-thenable dispatches the
pending notification and then throws synchronously, so that pending
notification is never followed by a success or failure notification. -/
theorem pending_without_settlement_counterexample :
    notificationsOf
        (asynchronous_middleware_run cfg0 next0 [] actionNonThenable).1 =
      [{ rest := sampleRest, type := .str "P" }] ∧
    (asynchronous_middleware_run cfg0 next0 [] actionNonThenable).2.2 =
      .thrown promise_error_message := by decide

/-- C3 (amended): for an intercepted intent that passes `events`
validation and whose promise call returns a thenable, exactly one of the
two notification sequences pending-then-success or pending-then-failure
is emitted, in that order, and the pending notification is dispatched
strictly before the operation's promise is invoked. -/
theorem pending_then_single_settlement (cfg : Config)
    (next : ReduxAction → JSVal) (tbl : CancelTable) (a : ReduxAction)
    (p : Promised) (P S F : JSVal)
    (hp : a.promise = some p) (hth : p.thenable = true)
    (hev : a.events = some [P, S, F]) :
    notificationsOf (asynchronous_middleware_run cfg next tbl a).1 =
      [{ rest := a.rest, type := P },
       match p.outcome with
       | .resolved v => { rest := a.rest, type := S, value := some v }
       | .rejected e => { rest := a.rest, type := F,
                          error := some (cfg.parseError e) }] ∧
    (∃ tail, (asynchronous_middleware_run cfg next tbl a).1 =
      .dispatched { rest := a.rest, type := P } ::
        .promiseInvoked p.id :: tail) := by
  cases ho : p.outcome <;>
    cases hc : (!cfg.server && a.cancelPrevious && p.cancellable) <;>
    cases he : (!cfg.server && cfg.on_error &&
      !(restField a.rest "preloading").truthy) <;>
    cases hg : tblGet tbl P <;>
    simp [asynchronous_middleware_run, asynchronous_middleware_sync,
      asynchronous_middleware_settle, resolved_events, notificationsOf,
      hp, hth, hev, ho, hc, he, hg]

/-- Witness for the amended C3 on a concrete rejecting intent: pending
then exactly one failure notification. -/
theorem pending_then_single_settlement_witness :
    notificationsOf
        (asynchronous_middleware_run cfg0 next0 [] actionRejected).1 =
      [{ rest := sampleRest, type := .str "P" },
       { rest := sampleRest, type := .str "F",
         error := some (cfg0.parseError (.str "boom")) }] ∧
    (∃ tail, (asynchronous_middleware_run cfg0 next0 [] actionRejected).1 =
      .dispatched { rest := sampleRest, type := .str "P" } ::
        .promiseInvoked 1 :: tail) :=
  pending_then_single_settlement cfg0 next0 [] actionRejected _ _ _ _
    rfl rfl rfl

/-- Counterexample to C4 as stated: dispatching two back-to-back
cancellable intents of the same pending-event-name, the second pass's
trace is pending, then the second operation's `promise` invocation, and
only then the first operation's `cancel()` — the cancel does not happen
before the second operation begins. -/
theorem cancel_after_second_start_counterexample :
    (asynchronous_middleware_sync cfg0 next0
        (asynchronous_middleware_sync cfg0 next0 [] actionCancelA).2.1
        actionCancelB).1 =
      [.dispatched { rest := [], type := .str "R" },
       .promiseInvoked 2, .cancelCalled 1] ∧
    comesBefore
      (asynchronous_middleware_sync cfg0 next0
        (asynchronous_middleware_sync cfg0 next0 [] actionCancelA).2.1
        actionCancelB).1
      (.cancelCalled 1) (.promiseInvoked 2) = false := by decide

/-- C4 (amended): given `cancelPrevious: true` and two cancellable
intercepted intents of the same pending-event-name dispatched back to
back on the client (the second before the first settles), the first
operation's `cancel()` is invoked exactly once, but only after the
second operation has begun: the second intent's `promise` invocation
strictly precedes the `cancel()` call. -/
theorem cancel_previous_once_after_second_start (cfg : Config)
    (next : ReduxAction → JSVal) (a b : ReduxAction) (pa pb : Promised)
    (R Sa Fa Sb Fb : JSVal)
    (hsrv : cfg.server = false)
    (hpa : a.promise = some pa) (hpb : b.promise = some pb)
    (hta : pa.thenable = true) (htb : pb.thenable = true)
    (hca : pa.cancellable = true) (hcb : pb.cancellable = true)
    (hcpa : a.cancelPrevious = true) (hcpb : b.cancelPrevious = true)
    (heva : a.events = some [R, Sa, Fa])
    (hevb : b.events = some [R, Sb, Fb]) :
    countEv (asynchronous_middleware_sync cfg next
        (asynchronous_middleware_sync cfg next [] a).2.1 b).1
      (.cancelCalled pa.id) = 1 ∧
    comesBefore (asynchronous_middleware_sync cfg next
        (asynchronous_middleware_sync cfg next [] a).2.1 b).1
      (.promiseInvoked pb.id) (.cancelCalled pa.id) = true := by
  have h1 : (asynchronous_middleware_sync cfg next [] a).2.1 =
      [(R, pa.id)] := by
    simp [asynchronous_middleware_sync, resolved_events, hpa, hta, heva,
      hsrv, hcpa, hca, tblGet, tblSet]
  have h2 : (asynchronous_middleware_sync cfg next [(R, pa.id)] b).1 =
      [.dispatched { rest := b.rest, type := R }, .promiseInvoked pb.id,
       .cancelCalled pa.id] := by
    simp [asynchronous_middleware_sync, resolved_events, hpb, htb, hevb,
      hsrv, hcpb, hcb, tblGet]
  rw [h1, h2]
  constructor
  · simp [countEv]
  · simp [comesBefore, memEv]

/-- Witness for the amended C4 on the two concrete intents. -/
theorem cancel_previous_once_witness :
    countEv (asynchronous_middleware_sync cfg0 next0
        (asynchronous_middleware_sync cfg0 next0 [] actionCancelA).2.1
        actionCancelB).1 (.cancelCalled 1) = 1 ∧
    comesBefore (asynchronous_middleware_sync cfg0 next0
        (asynchronous_middleware_sync cfg0 next0 [] actionCancelA).2.1
        actionCancelB).1 (.promiseInvoked 2) (.cancelCalled 1) = true :=
  cancel_previous_once_after_second_start cfg0 next0
    actionCancelA actionCancelB _ _ _ _ _ _ _
    rfl rfl rfl rfl rfl rfl rfl rfl rfl rfl rfl

/-- C5: for a rejected operation, the error-report callback is invoked
exactly once when the server flag is false, a callback is configured,
and the intent's `preloading` field is falsy — and never otherwise; in
particular never on the server and never for preloading intents. -/
theorem on_error_invoked_iff (cfg : Config) (next : ReduxAction → JSVal)
    (tbl : CancelTable) (a : ReduxAction) (p : Promised) (P S F e : JSVal)
    (hp : a.promise = some p) (hth : p.thenable = true)
    (hout : p.outcome = .rejected e) (hev : a.events = some [P, S, F]) :
    countEv (asynchronous_middleware_run cfg next tbl a).1
      (.onErrorCalled e) =
      (if cfg.server = false ∧ cfg.on_error = true ∧
          (restField a.rest "preloading").truthy = false
       then 1 else 0) := by
  cases hs : cfg.server <;> cases ho : cfg.on_error <;>
    cases hpre : (restField a.rest "preloading").truthy <;>
    cases hc : (a.cancelPrevious && p.cancellable) <;>
    cases hg : tblGet tbl P <;>
    simp [asynchronous_middleware_run, asynchronous_middleware_sync,
      asynchronous_middleware_settle, resolved_events, countEv,
      hp, hth, hout, hev, hs, ho, hpre, hc, hg]

/-- Witness for C5 on a concrete rejecting intent under a client-side
configuration with a callback configured. -/
theorem on_error_invoked_witness :
    countEv (asynchronous_middleware_run cfg0 next0 [] actionRejected).1
      (.onErrorCalled (.str "boom")) =
      (if cfg0.server = false ∧ cfg0.on_error = true ∧
          (restField actionRejected.rest "preloading").truthy = false
       then 1 else 0) :=
  on_error_invoked_iff cfg0 next0 [] actionRejected _ _ _ _ _
    rfl rfl rfl rfl

/-- Counterexample to C6 as stated: a triple of three numbers — not
strings — passes validation: no construction error is raised, the pass
completes normally, and the notifications carry numeric kinds. -/
theorem nonstring_triple_accepted_counterexample :
    asynchronous_middleware_run cfg0 next0 [] actionNumericEvents =
      ([.dispatched { rest := [], type := .num 1 },
        .promiseInvoked 1,
        .dispatched { rest := [], type := .num 2, value := some (.num 7) }],
       [], .settled (.resolved (.num 7))) := by decide

/-- C6 (amended): the middleware validates only that the resolved
`events` value exists and has length exactly 3 — element types are never
checked.  When the triple cannot be resolved (`events` absent and
`event` absent or not a string) or resolves with the wrong length, a
construction error is thrown synchronously, before any notification is
dispatched and leaving the table untouched; a resolved triple of length
3 never raises the events construction error. -/
theorem events_validation (cfg : Config) (next : ReduxAction → JSVal)
    (tbl : CancelTable) (a : ReduxAction) (p : Promised)
    (hp : a.promise = some p) :
    ((a.events = none ∧ (∀ s, a.event ≠ some (.str s))) →
      asynchronous_middleware_run cfg next tbl a =
        ([], tbl, .thrown events_error_message)) ∧
    (∀ es, resolved_events cfg a = some es → es.length ≠ 3 →
      asynchronous_middleware_run cfg next tbl a =
        ([], tbl, .thrown events_error_message)) ∧
    (∀ es, resolved_events cfg a = some es → es.length = 3 →
      (asynchronous_middleware_run cfg next tbl a).2.2 ≠
        .thrown events_error_message) := by
  refine ⟨?_, ?_, ?_⟩
  · rintro ⟨hev, hevt⟩
    have hre : resolved_events cfg a = none := by
      rcases he2 : a.event with _ | v
      · simp [resolved_events, hev, he2]
      · cases v <;> first
          | exact absurd he2 (hevt _)
          | simp [resolved_events, hev, he2]
    simp [asynchronous_middleware_run, asynchronous_middleware_sync, hp, hre]
  · rintro es hre hlen
    rcases es with _ | ⟨x, _ | ⟨y, _ | ⟨z, _ | ⟨w, rest2⟩⟩⟩⟩ <;>
      simp_all [asynchronous_middleware_run, asynchronous_middleware_sync,
        hp, hre]
  · rintro es hre hlen
    rcases es with _ | ⟨x, _ | ⟨y, _ | ⟨z, _ | ⟨w, rest2⟩⟩⟩⟩ <;>
      try simp at hlen
    cases ht : p.thenable <;>
      cases hc : (!cfg.server && a.cancelPrevious && p.cancellable) <;>
      cases hg : tblGet tbl x <;>
      simp [asynchronous_middleware_run, asynchronous_middleware_sync,
        hp, hre, ht, hc, hg, events_error_message, promise_error_message]

/-- Witness for the amended C6: an intent with neither `events` nor
`event` throws the construction error with no notification dispatched. -/
theorem events_validation_witness :
    asynchronous_middleware_run cfg0 next0 [] actionNoEvents =
      ([], [], .thrown events_error_message) :=
  (events_validation cfg0 next0 [] actionNoEvents _ rfl).1
    ⟨rfl, fun s h => by simp [actionNoEvents] at h⟩

theorem tblGet_tblSet_self (tbl : CancelTable) (k : JSVal) (pid : Nat) :
    tblGet (tblSet tbl k pid) k = some pid := by
  induction tbl with
  | nil => simp [tblGet, tblSet]
  | cons kv rest ih =>
    by_cases h : kv.1 = k <;>
      simp [tblGet, tblSet, h, ih]

theorem tblGet_tblDel_self (tbl : CancelTable) (k : JSVal) :
    tblGet (tblDel tbl k) k = none := by
  induction tbl with
  | nil => simp [tblGet, tblDel]
  | cons kv rest ih =>
    by_cases h : kv.1 = k <;>
      simp [tblGet, tblDel, h, List.filter] at ih ⊢ <;>
      simp [ih]

/-- C8: lifecycle of the cancellation table.  When an intercepted
operation starts and is cancellable, the table afterwards maps its
pending-event-name to this operation — any prior holder was first
cancelled exactly once, and no `cancel()` happens when there was none;
a non-cancellable start leaves the table untouched with no `cancel()`.
When an operation settles — resolving or rejecting alike — a cancellable
operation's entry is deleted, while a non-cancellable settlement leaves
the table untouched. -/
theorem cancellation_table_lifecycle (cfg : Config)
    (next : ReduxAction → JSVal) :
    (∀ tbl a p R S F, a.promise = some p → p.thenable = true →
      resolved_events cfg a = some [R, S, F] →
      (((!cfg.server && a.cancelPrevious && p.cancellable) = true →
        tblGet (asynchronous_middleware_sync cfg next tbl a).2.1 R =
          some p.id ∧
        (∀ prev, tblGet tbl R = some prev →
          countEv (asynchronous_middleware_sync cfg next tbl a).1
            (.cancelCalled prev) = 1) ∧
        (tblGet tbl R = none →
          ∀ i, countEv (asynchronous_middleware_sync cfg next tbl a).1
            (.cancelCalled i) = 0)) ∧
      ((!cfg.server && a.cancelPrevious && p.cancellable) = false →
        (asynchronous_middleware_sync cfg next tbl a).2.1 = tbl ∧
        ∀ i, countEv (asynchronous_middleware_sync cfg next tbl a).1
          (.cancelCalled i) = 0))) ∧
    (∀ tbl op,
      (op.cancellable = true →
        (asynchronous_middleware_settle cfg tbl op).2.1 =
          tblDel tbl op.request ∧
        tblGet (asynchronous_middleware_settle cfg tbl op).2.1
          op.request = none) ∧
      (op.cancellable = false →
        (asynchronous_middleware_settle cfg tbl op).2.1 = tbl)) := by
  constructor
  · intro tbl a p R S F hp hth hre
    constructor
    · intro hc
      cases hg : tblGet tbl R <;>
        refine ⟨?_, ?_, ?_⟩ <;>
        simp [asynchronous_middleware_sync, hp, hth, hre, hc, hg,
          countEv, tblGet_tblSet_self]
    · intro hc
      constructor <;>
        simp [asynchronous_middleware_sync, hp, hth, hre, hc, countEv]
  · intro tbl op
    constructor <;> intro hoc <;>
      cases ho : op.outcome <;>
      simp [asynchronous_middleware_settle, ho, hoc, tblGet_tblDel_self]

/-- Witness for C8: settling the concrete cancellable operation removes
its table entry. -/
theorem cancellation_table_lifecycle_witness :
    (asynchronous_middleware_settle cfg0 [(.str "R", 1)] inflightR).2.1 =
      tblDel [(.str "R", 1)] (.str "R") ∧
    tblGet (asynchronous_middleware_settle cfg0 [(.str "R", 1)]
        inflightR).2.1 (.str "R") = none :=
  ((cancellation_table_lifecycle cfg0 next0).2 [(.str "R", 1)] inflightR).1
    rfl
